import Mathlib

/-!
Shallow embedding of the coach-agent core of the repository:
the tool-augmented conversational agent loop of
src/frontend/lib/agents/coachAgent.ts, the legacy single-pass variant of
src/unnamed/part_000, the goal-management callbacks and the streaming chat
route of src/unnamed/part_006, and the relevant parts of the database
schema (src/frontend/lib/database/schema.ts).

Modelling conventions:
- JavaScript string truthiness (`if (x)` on `string | undefined`) becomes
  `jsTruthy : Option String -> Bool`, false on `none` and on `some ""`.
- The two language-model invocations are an oracle (`ModelBehavior`):
  the decision pass maps the enhanced history and the user input to an
  `ModelResponse`, the follow-up pass maps the follow-up history to content.
- Async generators become functions returning the list of yielded events
  together with `Option String`: `some e` means the generator raised `e`
  after yielding those events.
- Database effects become explicit state passing over a `DB` value; a
  rejected promise becomes `Except.error`. `new Date s` values are
  modelled by the source string `s`. Generated uuids are modelled by a
  counter `DB.nextId`.
-/

namespace Coach

/-- JavaScript truthiness of a `string | undefined` value: `undefined`
and the empty string are falsy. -/
def jsTruthy : Option String → Bool
  | none => false
  | some s => s ≠ ""

/-- JavaScript `x || d` on a `string | undefined` value `x`. -/
def jsOr (x : Option String) (d : String) : String :=
  match x with
  | none => d
  | some s => if s = "" then d else s

/-- Content of a model message: either a plain string or a non-string
value carried together with its JSON serialization. -/
inductive JsContent where
  | str (s : String)
  | complex (json : String)
deriving DecidableEq, Repr

/-- JavaScript truthiness of message content: an empty string is falsy,
a non-string value (object or array) is truthy. -/
def JsContent.truthy : JsContent → Bool
  | .str s => s ≠ ""
  | .complex _ => true

/-- `typeof c === 'string' ? c : JSON.stringify(c)`. -/
def JsContent.serialize : JsContent → String
  | .str s => s
  | .complex j => j

/-- The argument object of a tool call, covering every named argument
destructured by the four tool executors of coachAgent.ts. A field is
`none` when the model did not supply it. -/
structure ToolArgs where
  title : Option String := none
  description : Option String := none
  targetDate : Option String := none
  goalId : Option String := none
  status : Option String := none
  notes : Option String := none
  sentiment : Option String := none
deriving DecidableEq, Repr

/-- A tool call requested by the model (name + arguments + optional id),
as found on `response.tool_calls`. -/
structure ToolCall where
  id : Option String := none
  name : String
  args : ToolArgs
deriving DecidableEq, Repr

/-- LangChain message variants used by the agent
(HumanMessage, AIMessage, SystemMessage, ToolMessage). -/
inductive BaseMessage where
  | human (content : String)
  | ai (content : JsContent) (tool_calls : List ToolCall)
  | system (content : String)
  | tool (content : String) (tool_call_id : String)
deriving DecidableEq, Repr

/-- The `Goal` interface of coachAgent.ts. -/
structure Goal where
  id : String
  title : String
  description : Option String := none
  status : Option String := none
  targetDate : Option String := none
deriving DecidableEq, Repr

/-- The update object accepted by the `updateGoal` callback. -/
structure GoalUpdates where
  title : Option String := none
  description : Option String := none
  status : Option String := none
  targetDate : Option String := none
deriving DecidableEq, Repr

/-- A recent-progress entry as consumed by the agent (`{ notes }`). -/
structure ProgressNote where
  notes : String
deriving DecidableEq, Repr

/-- The `userContext` argument of the agent entry points. -/
structure UserContext where
  goals : List Goal := []
  recentProgress : List ProgressNote := []
deriving DecidableEq, Repr

/-- JSON rendering of a `string | null` field value. -/
def jsonOptStr : Option String → String
  | none => "null"
  | some s => "\x22" ++ s ++ "\x22"

/-- JSON rendering of a `Goal`, modelling `JSON.stringify(result)` in the
tool executors. -/
def Goal.stringify (g : Goal) : String :=
  "\x7b\x22id\x22:\x22" ++ g.id ++ "\x22,\x22title\x22:\x22" ++ g.title ++
    "\x22,\x22description\x22:" ++ jsonOptStr g.description ++
    ",\x22status\x22:" ++ jsonOptStr g.status ++
    ",\x22targetDate\x22:" ++ jsonOptStr g.targetDate ++ "\x7d"

/-- JSON rendering of a list of goals, modelling `JSON.stringify` of the
`listGoals` result. -/
def stringifyGoals (gs : List Goal) : String :=
  "[" ++ String.intercalate "," (gs.map Goal.stringify) ++ "]"

/-- The events yielded by `chatWithToolsStream` (the `StreamEvent` union
of coachAgent.ts). -/
inductive StreamEvent where
  | tool_call (name : String) (args : ToolArgs)
  | tool_result (name : String) (result : String)
  | content (data : String)
  | done
deriving DecidableEq, Repr

/-- An entry of the `toolMessages` accumulator of `chatWithToolsStream`. -/
structure ToolMsg where
  tool_call_id : String
  name : String
  content : String
deriving DecidableEq, Repr

/-- The `GoalManagementCallbacks` interface of coachAgent.ts. Each
callback threads an explicit state `σ` (the database behind the
closures) and may reject with an error string. -/
structure GoalManagementCallbacks (σ : Type) where
  createGoal : String → Option String → Option String → σ → Except String (Goal × σ)
  updateGoal : String → GoalUpdates → σ → Except String (Goal × σ)
  addProgress : String → String → Option String → σ → Except String (Bool × σ)
  listGoals : σ → Except String (List Goal × σ)

/-- A `DynamicStructuredTool` as used by the agent loop: a name and the
raw executor `func` (the loop calls `tool.func` directly). -/
structure Tool (σ : Type) where
  name : String
  func : ToolArgs → σ → Except String (String × σ)

/-- The `create_goal` tool of coachAgent.ts. Its schema requires `title`;
a call without it cannot produce a goal (the title column is NOT NULL),
modelled as an error. -/
def createGoalTool (cbs : GoalManagementCallbacks σ) : Tool σ where
  name := "create_goal"
  func := fun args s =>
    match args.title with
    | none => .error "title is required"
    | some title =>
      match cbs.createGoal title args.description args.targetDate s with
      | .error e => .error e
      | .ok (g, s') => .ok (g.stringify, s')

/-- The `update_goal` tool of coachAgent.ts: builds an `updates` object
keeping only the truthy optional arguments, then calls the callback. Its
schema requires `goalId`. -/
def updateGoalTool (cbs : GoalManagementCallbacks σ) : Tool σ where
  name := "update_goal"
  func := fun args s =>
    match args.goalId with
    | none => .error "goalId is required"
    | some goalId =>
      let updates : GoalUpdates :=
        { title := if jsTruthy args.title then args.title else none
          description := if jsTruthy args.description then args.description else none
          status := if jsTruthy args.status then args.status else none
          targetDate := if jsTruthy args.targetDate then args.targetDate else none }
      match cbs.updateGoal goalId updates s with
      | .error e => .error e
      | .ok (g, s') => .ok (g.stringify, s')

/-- The `add_progress` tool of coachAgent.ts. Its schema requires
`goalId` and `notes`; the callback result `{ success: true }` is
serialized as its JSON rendering. -/
def addProgressTool (cbs : GoalManagementCallbacks σ) : Tool σ where
  name := "add_progress"
  func := fun args s =>
    match args.goalId, args.notes with
    | some goalId, some notes =>
      match cbs.addProgress goalId notes args.sentiment s with
      | .error e => .error e
      | .ok (_, s') => .ok ("\x7b\x22success\x22:true\x7d", s')
    | _, _ => .error "goalId and notes are required"

/-- The `list_goals` tool of coachAgent.ts (empty schema, ignores its
arguments). -/
def listGoalsTool (cbs : GoalManagementCallbacks σ) : Tool σ where
  name := "list_goals"
  func := fun _ s =>
    match cbs.listGoals s with
    | .error e => .error e
    | .ok (gs, s') => .ok (stringifyGoals gs, s')

/-- `createTools` of coachAgent.ts: the four bound tools, in source
order. -/
def createTools (cbs : GoalManagementCallbacks σ) : List (Tool σ) :=
  [createGoalTool cbs, updateGoalTool cbs, addProgressTool cbs, listGoalsTool cbs]

/-- The goals directive text built by `chatWithToolsStream`
(coachAgent.ts line 175). -/
def goalsContext (goals : List Goal) : String :=
  "Active goals:\n" ++ String.intercalate "\n" (goals.map fun g =>
    "- [ID: " ++ g.id ++ "] " ++ g.title ++ ": " ++
      jsOr g.description "No description" ++
      " (Status: " ++ jsOr g.status "active" ++ ")")

/-- The recent-progress directive text built by `chatWithToolsStream`
(coachAgent.ts line 181). -/
def progressContext (notes : List ProgressNote) : String :=
  "Recent progress:\n" ++ String.intercalate "\n" (notes.map fun p => "- " ++ p.notes)

/-- The enhanced history assembly of `chatWithToolsStream`
(coachAgent.ts lines 171-183): start from the prior history, prepend the
goals directive when there is at least one goal, then prepend the
progress directive when there is at least one note. -/
def buildEnhancedHistory (chatHistory : List BaseMessage) (ctx : UserContext) : List BaseMessage :=
  let h1 := if ctx.goals.length > 0 then
    BaseMessage.system (goalsContext ctx.goals) :: chatHistory else chatHistory
  if ctx.recentProgress.length > 0 then
    BaseMessage.system (progressContext ctx.recentProgress) :: h1 else h1

/-- The decision-pass response of the model: content plus the requested
tool calls. -/
structure ModelResponse where
  content : JsContent
  tool_calls : List ToolCall := []

/-- Oracle for the two model invocations: the decision pass receives the
enhanced history and the user input (the prompt template wiring), the
follow-up pass receives the follow-up history. -/
structure ModelBehavior where
  decision : List BaseMessage → String → ModelResponse
  followUp : List BaseMessage → JsContent

/-- The tool-execution loop of `chatWithToolsStream` (coachAgent.ts
lines 207-238): for each call, yield a `tool_call` event, look the tool
up by name, and when found run its executor, yield a `tool_result`
event and record a tool message. A calls whose name matches no tool
yields no result event; a raising executor aborts the generator, which
is modelled by returning the events yielded so far together with the
error. Returns (events, tool messages, final state, error). -/
def runToolCalls (tools : List (Tool σ)) :
    List ToolCall → σ → List StreamEvent × List ToolMsg × σ × Option String
  | [], s => ([], [], s, none)
  | tc :: rest, s =>
    match tools.find? (fun t => t.name == tc.name) with
    | none =>
      let r := runToolCalls tools rest s
      (StreamEvent.tool_call tc.name tc.args :: r.1, r.2)
    | some t =>
      match t.func tc.args s with
      | .error e => ([StreamEvent.tool_call tc.name tc.args], [], s, some e)
      | .ok (res, s') =>
        let r := runToolCalls tools rest s'
        (StreamEvent.tool_call tc.name tc.args :: StreamEvent.tool_result tc.name res :: r.1,
         ⟨tc.id.getD tc.name, tc.name, res⟩ :: r.2.1, r.2.2)

/-- `chatWithToolsStream` of coachAgent.ts (lines 165-285): build the
enhanced history, run the decision pass, and either execute the
requested tool calls followed by a follow-up pass whose content is
always emitted, or emit the decision content directly when it is
truthy; finish with a `done` event. Returns the yielded events, the
final callback state, and `some e` when a tool executor raised `e`
(aborting the generator before any content or done event). -/
def chatWithToolsStream (beh : ModelBehavior) (input : String)
    (chatHistory : List BaseMessage) (ctx : UserContext)
    (cbs : GoalManagementCallbacks σ) (s : σ) :
    List StreamEvent × σ × Option String :=
  let enhancedHistory := buildEnhancedHistory chatHistory ctx
  let tools := createTools cbs
  let response := beh.decision enhancedHistory input
  if response.tool_calls.length > 0 then
    match runToolCalls tools response.tool_calls s with
    | (evs, _, s', some e) => (evs, s', some e)
    | (evs, toolMsgs, s', none) =>
      let followUpHistory :=
        enhancedHistory ++
        [BaseMessage.human input,
         BaseMessage.ai (if response.content.truthy then response.content else .str "")
           response.tool_calls] ++
        toolMsgs.map (fun tm => BaseMessage.tool tm.content tm.tool_call_id)
      let finalResponse := beh.followUp followUpHistory
      (evs ++ [StreamEvent.content finalResponse.serialize, StreamEvent.done], s', none)
  else
    if response.content.truthy then
      ([StreamEvent.content response.content.serialize, StreamEvent.done], s, none)
    else
      ([StreamEvent.done], s, none)

/-- The `GoalManagementCallbacks` interface of the legacy agent module
(src/unnamed/part_000): same shape but without `listGoals`. -/
structure GoalManagementCallbacksV0 (σ : Type) where
  createGoal : String → Option String → Option String → σ → Except String (Goal × σ)
  updateGoal : String → GoalUpdates → σ → Except String (Goal × σ)
  addProgress : String → String → Option String → σ → Except String (Bool × σ)

/-- `chatWithTools` of the legacy agent module (src/unnamed/part_000
lines 162-200): builds the same enhanced history, binds the (three)
tools to the model, performs a single decision-pass invocation and
returns `response.content` unchanged. No tool is executed, no follow-up
pass is made and no event is emitted. -/
def chatWithTools (beh : ModelBehavior) (input : String)
    (chatHistory : List BaseMessage) (ctx : UserContext)
    (_cbs : GoalManagementCallbacksV0 σ) : JsContent :=
  let enhancedHistory := buildEnhancedHistory chatHistory ctx
  let response := beh.decision enhancedHistory input
  response.content

/-- A stored chat message shaped `{ role, content }` as passed to
`convertMessageHistory`. -/
structure ChatMessage where
  role : String
  content : String
deriving DecidableEq, Repr

/-- `convertMessageHistory` of coachAgent.ts (lines 287-300): map each
record to a LangChain message by its role, defaulting to a human turn. -/
def convertMessageHistory (msgs : List ChatMessage) : List BaseMessage :=
  msgs.map fun msg =>
    match msg.role with
    | "user" => BaseMessage.human msg.content
    | "assistant" => BaseMessage.ai (JsContent.str msg.content) []
    | "system" => BaseMessage.system msg.content
    | _ => BaseMessage.human msg.content

/-- A row of the `coaching_goals` table (schema.ts): `description` and
`target_date` are nullable, `title`, `status` and `user_id` are NOT
NULL. Timestamps are omitted (no claim mentions them). -/
structure GoalRow where
  id : String
  userId : String
  title : String
  description : Option String := none
  status : String
  targetDate : Option String := none
deriving DecidableEq, Repr

/-- A row of the `progress` table (schema.ts): `goal_id` and `notes`
are NOT NULL, `sentiment` nullable; `goal_id` references
`coaching_goals.id`. -/
structure ProgressRow where
  id : String
  goalId : String
  notes : String
  sentiment : Option String := none
deriving DecidableEq, Repr

/-- A row of the `messages` table (schema.ts), restricted to the fields
the streaming route writes. -/
structure MessageRow where
  conversationId : String
  role : String
  content : String
deriving DecidableEq, Repr

/-- The database state the goal-management callbacks operate on, with a
counter modelling uuid generation. -/
structure DB where
  goals : List GoalRow := []
  progressRows : List ProgressRow := []
  messages : List MessageRow := []
  nextId : Nat := 0
deriving DecidableEq, Repr

/-- View of a stored row through the agent `Goal` interface (the route
returns the row object directly). -/
def GoalRow.toGoal (r : GoalRow) : Goal :=
  { id := r.id, title := r.title, description := r.description,
    status := some r.status, targetDate := r.targetDate }

/-- `goalCallbacks.createGoal` of the streaming route (src/unnamed/
part_006 lines 312-321): insert a row with the given title and
description, status `active`, and a target date only when the argument
is truthy, returning the new row. -/
def dbCreateGoal (userId : String) (title : String) (description : Option String)
    (targetDate : Option String) (db : DB) : Except String (Goal × DB) :=
  let row : GoalRow :=
    { id := toString db.nextId, userId := userId, title := title,
      description := description, status := "active",
      targetDate := if jsTruthy targetDate then targetDate else none }
  .ok (row.toGoal, { db with goals := db.goals ++ [row], nextId := db.nextId + 1 })

/-- The field-wise patch performed by `goalCallbacks.updateGoal`
(src/unnamed/part_006 lines 323-328): each update field is written only
when truthy. -/
def applyGoalUpdates (u : GoalUpdates) (r : GoalRow) : GoalRow :=
  { r with
    title := if jsTruthy u.title then u.title.getD r.title else r.title
    description := if jsTruthy u.description then u.description else r.description
    status := if jsTruthy u.status then u.status.getD r.status else r.status
    targetDate := if jsTruthy u.targetDate then u.targetDate else r.targetDate }

/-- `goalCallbacks.updateGoal` of the streaming route (src/unnamed/
part_006 lines 322-337): build `updateData` keeping only the truthy
update fields; when every field is filtered out the update object is
empty and drizzle rejects `db.update(...).set(updateData)` with
`No values to set` before anything is written; otherwise the rows
matching the goal id and the owning user are patched and the updated
row is returned. When no row matches, the source destructures an empty
result and hands `undefined` downstream, which is modelled as an
error. -/
def dbUpdateGoal (userId : String) (goalId : String) (u : GoalUpdates) (db : DB) :
    Except String (Goal × DB) :=
  if jsTruthy u.title || jsTruthy u.description || jsTruthy u.status ||
      jsTruthy u.targetDate then
    let matchesRow := fun (r : GoalRow) => r.id == goalId && r.userId == userId
    let newGoals := db.goals.map fun r => if matchesRow r then applyGoalUpdates u r else r
    match newGoals.find? matchesRow with
    | some g => .ok (g.toGoal, { db with goals := newGoals })
    | none => .error "goal not found"
  else
    .error "No values to set"

/-- `goalCallbacks.addProgress` of the streaming route (src/unnamed/
part_006 lines 338-345): insert a progress row and return
`{ success: true }`. The insert rejects when the goal id violates the
foreign key of the `progress` table (schema.ts). -/
def dbAddProgress (goalId : String) (notes : String) (sentiment : Option String)
    (db : DB) : Except String (Bool × DB) :=
  if db.goals.any (fun r => r.id == goalId) then
    .ok (true,
      { db with
        progressRows := db.progressRows ++
          [{ id := toString db.nextId, goalId := goalId, notes := notes,
             sentiment := sentiment }],
        nextId := db.nextId + 1 })
  else
    .error "goal not found"

/-- `goalCallbacks.listGoals` of the streaming route (src/unnamed/
part_006 lines 346-353): select the goals of the user, no writes. -/
def dbListGoals (userId : String) (db : DB) : Except String (List Goal × DB) :=
  .ok ((db.goals.filter (fun r => r.userId == userId)).map GoalRow.toGoal, db)

/-- The `goalCallbacks` object the streaming route passes to the agent,
closed over the authenticated user. -/
def goalCallbacks (userId : String) : GoalManagementCallbacks DB :=
  { createGoal := dbCreateGoal userId
    updateGoal := dbUpdateGoal userId
    addProgress := dbAddProgress
    listGoals := dbListGoals userId }

/-- A Server-Sent-Events frame enqueued by the streaming route: a
relayed agent event, the final conversation-id event, or the terminal
error event of the catch block. -/
inductive SSEEvent where
  | stream (e : StreamEvent)
  | conversation_id (id : String)
  | error (message : String)
deriving DecidableEq, Repr

/-- The `fullResponse` accumulation of the streaming route: concatenate
the payloads of the content events in order. -/
def contentConcat (evs : List StreamEvent) : String :=
  evs.foldl (fun acc e => match e with | .content d => acc ++ d | _ => acc) ""

/-- The data payloads of the content events of a stream, in order. -/
def contentDatas (evs : List StreamEvent) : List String :=
  evs.foldr (fun e acc => match e with | .content d => d :: acc | _ => acc) []

/-- The stream body of the streaming chat route (src/unnamed/part_006
lines 357-407), given the already-resolved conversation, history and
context: relay each agent event as an SSE frame while accumulating
content; on normal completion insert the assistant message row and send
the conversation-id frame; when the agent loop raised, the catch block
sends the terminal error frame instead and nothing is inserted. -/
def routeStreamBody (beh : ModelBehavior) (userId : String) (message : String)
    (chatHistory : List BaseMessage) (ctx : UserContext) (convId : String)
    (db : DB) : List SSEEvent × DB :=
  match chatWithToolsStream beh message chatHistory ctx (goalCallbacks userId) db with
  | (evs, db', some _) =>
    (evs.map SSEEvent.stream ++ [SSEEvent.error "Failed to process message"], db')
  | (evs, db', none) =>
    (evs.map SSEEvent.stream ++ [SSEEvent.conversation_id convId],
     { db' with
       messages := db'.messages ++
         [{ conversationId := convId, role := "assistant",
            content := contentConcat evs }] })

/-- Whether a stream event is a tool_call event. -/
def StreamEvent.isToolCall : StreamEvent → Bool
  | .tool_call _ _ => true
  | _ => false

/-- Whether a stream event is a tool_result event. -/
def StreamEvent.isToolResult : StreamEvent → Bool
  | .tool_result _ _ => true
  | _ => false

/-- Whether a stream event is a content event. -/
def StreamEvent.isContent : StreamEvent → Bool
  | .content _ => true
  | _ => false

/-- The strict interleaving of tool_call and tool_result events in call
order: call i, result i, call i+1, ... -/
def interleaveEvents : List ToolCall → List String → List StreamEvent
  | tc :: tcs, r :: rs =>
    StreamEvent.tool_call tc.name tc.args :: StreamEvent.tool_result tc.name r ::
      interleaveEvents tcs rs
  | _, _ => []

/-- Empty user context: no goals, no recent progress. -/
def emptyCtx : UserContext := {}

/-- Empty database state. -/
def emptyDB : DB := {}

/-- A stubbed model that requests a single call to a tool name that is
not among the four bound tools. -/
def behUnknownTool : ModelBehavior where
  decision := fun _ _ =>
    { content := .str "", tool_calls := [{ name := "frobnicate", args := {} }] }
  followUp := fun _ => .str "ok"

/-- Arguments of an add_progress call naming a goal that does not
exist. -/
def failArgs : ToolArgs := { goalId := some "g1", notes := some "ran today" }

/-- A stubbed model that requests a single add_progress call whose
executor rejects (the goal does not exist). -/
def behAddProgressFail : ModelBehavior where
  decision := fun _ _ =>
    { content := .str "", tool_calls := [{ name := "add_progress", args := failArgs }] }
  followUp := fun _ => .str "noted"

/-- A stubbed model that requests a single list_goals call and narrates
afterwards. -/
def behListThenTell : ModelBehavior where
  decision := fun _ _ =>
    { content := .str "", tool_calls := [{ name := "list_goals", args := {} }] }
  followUp := fun _ => .str "You have no goals yet."

/-- A stubbed model that answers directly with plain nonempty content
and no tool calls. -/
def behPlain : ModelBehavior where
  decision := fun _ _ => { content := .str "Hello there", tool_calls := [] }
  followUp := fun _ => .str "unused"

/-- A stubbed model that answers with empty string content and no tool
calls. -/
def behEmptyContent : ModelBehavior where
  decision := fun _ _ => { content := .str "", tool_calls := [] }
  followUp := fun _ => .str "unused"

/-- A stubbed model that requests a single successful create_goal
call. -/
def behCreateGoal : ModelBehavior where
  decision := fun _ _ =>
    { content := .str "",
      tool_calls := [{ name := "create_goal", args := { title := some "Run a 5k" } }] }
  followUp := fun _ => .str "Goal created"

/-- Every event yielded by the tool-execution loop is a tool_call or a
tool_result event: the loop itself never yields content or done. -/
lemma runToolCalls_events_kind (tools : List (Tool σ)) :
    ∀ (tcs : List ToolCall) (s : σ) (ev : StreamEvent),
      ev ∈ (runToolCalls tools tcs s).1 →
      ev.isToolCall = true ∨ ev.isToolResult = true := by
  intro tcs
  induction tcs with
  | nil =>
    intro s ev h
    simp [runToolCalls] at h
  | cons tc rest ih =>
    intro s ev h
    unfold runToolCalls at h
    cases hf : List.find? (fun t => t.name == tc.name) tools with
    | none =>
      rw [hf] at h
      dsimp only at h
      rcases List.mem_cons.mp h with rfl | h2
      · left; rfl
      · exact ih s ev h2
    | some t =>
      rw [hf] at h
      dsimp only at h
      cases hr : t.func tc.args s with
      | error e =>
        rw [hr] at h
        dsimp only at h
        rcases List.mem_cons.mp h with rfl | h2
        · left; rfl
        · simp at h2
      | ok p =>
        obtain ⟨res, s'⟩ := p
        rw [hr] at h
        dsimp only at h
        rcases List.mem_cons.mp h with rfl | h2
        · left; rfl
        · rcases List.mem_cons.mp h2 with rfl | h3
          · right; rfl
          · exact ih s' ev h3

/-- When every requested tool name is found among the bound tools and no
executor raises, the tool-execution loop yields exactly the strict
interleaving call 0, result 0, call 1, result 1, ... -/
lemma runToolCalls_ok_shape (tools : List (Tool σ)) :
    ∀ (tcs : List ToolCall) (s : σ),
      (∀ tc ∈ tcs, (tools.find? (fun t => t.name == tc.name)).isSome) →
      (runToolCalls tools tcs s).2.2.2 = none →
      ∃ rs : List String, rs.length = tcs.length ∧
        (runToolCalls tools tcs s).1 = interleaveEvents tcs rs := by
  intro tcs
  induction tcs with
  | nil =>
    intro s _ _
    exact ⟨[], rfl, rfl⟩
  | cons tc rest ih =>
    intro s hn hok
    have hhead := hn tc (List.mem_cons_self tc rest)
    unfold runToolCalls at hok ⊢
    cases hf : List.find? (fun t => t.name == tc.name) tools with
    | none =>
      rw [hf] at hhead
      simp at hhead
    | some t =>
      rw [hf] at hok
      dsimp only at hok ⊢
      cases hr : t.func tc.args s with
      | error e =>
        rw [hr] at hok
        simp at hok
      | ok p =>
        obtain ⟨res, s'⟩ := p
        rw [hr] at hok
        dsimp only at hok ⊢
        obtain ⟨rs, hlen, hevs⟩ :=
          ih s' (fun x hx => hn x (List.mem_cons_of_mem _ hx)) hok
        exact ⟨res :: rs, by simp [hlen], by simp [interleaveEvents, hevs]⟩

/-- C4 (confirmed). For every prior history and user context, the
enhanced history is the optional progress directive, then the optional
goals directive, then the prior history unchanged: each directive
appears exactly once iff its source list is nonempty, both precede
every entry of the prior history, and the progress directive precedes
the goals directive. -/
theorem C4_context_directives (hist : List BaseMessage) (ctx : UserContext) :
    buildEnhancedHistory hist ctx =
      (if ctx.recentProgress.length > 0 then
        [BaseMessage.system (progressContext ctx.recentProgress)] else []) ++
      (if ctx.goals.length > 0 then
        [BaseMessage.system (goalsContext ctx.goals)] else []) ++ hist := by
  unfold buildEnhancedHistory
  by_cases hg : ctx.goals.length > 0 <;> by_cases hp : ctx.recentProgress.length > 0 <;>
    simp [hg, hp]

/-- C5 (amended). For a decision-pass response with zero tool calls the
stream is a single content event carrying the serialized content
followed by done when the content is truthy, and only the done event
when the content is falsy (in particular the empty string); the
callback state is untouched and no error is raised. -/
theorem C5_zero_toolcalls_stream (beh : ModelBehavior) (input : String)
    (hist : List BaseMessage) (ctx : UserContext)
    (cbs : GoalManagementCallbacks σ) (s : σ)
    (h : (beh.decision (buildEnhancedHistory hist ctx) input).tool_calls = []) :
    chatWithToolsStream beh input hist ctx cbs s =
      ((if (beh.decision (buildEnhancedHistory hist ctx) input).content.truthy then
        [StreamEvent.content
          (beh.decision (buildEnhancedHistory hist ctx) input).content.serialize,
         StreamEvent.done]
      else [StreamEvent.done]), s, none) := by
  unfold chatWithToolsStream
  dsimp only
  rw [h]
  simp only [List.length_nil, gt_iff_lt, lt_self_iff_false, if_false]
  split <;> rfl

/-- C5 counterexample: a decision-pass response with zero tool calls
and empty-string content yields no content event at all, only done. -/
theorem C5_empty_content_counterexample :
    (behEmptyContent.decision (buildEnhancedHistory [] emptyCtx) "hi").tool_calls = [] ∧
    (chatWithToolsStream behEmptyContent "hi" [] emptyCtx (goalCallbacks "u") emptyDB).1 =
      [StreamEvent.done] := by
  exact ⟨rfl, rfl⟩

/-- Witness for C5_zero_toolcalls_stream at a stubbed model answering
with nonempty plain content. -/
theorem C5_zero_toolcalls_stream_witness :
    chatWithToolsStream behPlain "hi" [] emptyCtx (goalCallbacks "u") emptyDB =
      ((if (behPlain.decision (buildEnhancedHistory [] emptyCtx) "hi").content.truthy then
        [StreamEvent.content
          (behPlain.decision (buildEnhancedHistory [] emptyCtx) "hi").content.serialize,
         StreamEvent.done]
      else [StreamEvent.done]), emptyDB, none) :=
  C5_zero_toolcalls_stream behPlain "hi" [] emptyCtx (goalCallbacks "u") emptyDB rfl

/-- C10 (confirmed). `convertMessageHistory` is total, length- and
order-preserving, and maps the role user to a human turn, assistant to
a model turn, system to a system directive, and every other role value
to a human turn. -/
theorem C10_convert_history (msgs : List ChatMessage) :
    (convertMessageHistory msgs).length = msgs.length ∧
    ∀ i : Nat, (convertMessageHistory msgs)[i]? = (msgs[i]?).map (fun m =>
      if m.role = "user" then BaseMessage.human m.content
      else if m.role = "assistant" then BaseMessage.ai (JsContent.str m.content) []
      else if m.role = "system" then BaseMessage.system m.content
      else BaseMessage.human m.content) := by
  have key : ∀ m : ChatMessage,
      (match m.role with
        | "user" => BaseMessage.human m.content
        | "assistant" => BaseMessage.ai (JsContent.str m.content) []
        | "system" => BaseMessage.system m.content
        | _ => BaseMessage.human m.content) =
      (if m.role = "user" then BaseMessage.human m.content
      else if m.role = "assistant" then BaseMessage.ai (JsContent.str m.content) []
      else if m.role = "system" then BaseMessage.system m.content
      else BaseMessage.human m.content) := by
    intro m
    by_cases h1 : m.role = "user"
    · simp [h1]
    · by_cases h2 : m.role = "assistant"
      · simp [h1, h2]
      · by_cases h3 : m.role = "system"
        · simp [h1, h2, h3]
        · split <;> simp_all
  constructor
  · simp [convertMessageHistory]
  · intro i
    unfold convertMessageHistory
    rw [List.getElem?_map]
    cases h : msgs[i]? with
    | none => rfl
    | some m => simp only [Option.map_some']; rw [key m]

/-- C8 (confirmed). Invoking the list_goals tool leaves the database
unchanged (no goal, progress or message row touched), and a second
invocation on the returned state produces the identical result. -/
theorem C8_list_goals_pure (uid : String) (db : DB) (args : ToolArgs)
    (r : String) (db' : DB)
    (h : (listGoalsTool (goalCallbacks uid)).func args db = .ok (r, db')) :
    db' = db ∧ (listGoalsTool (goalCallbacks uid)).func args db' = .ok (r, db') := by
  unfold listGoalsTool goalCallbacks dbListGoals at h ⊢
  simp at h
  obtain ⟨hr, hdb⟩ := h
  subst hdb
  subst hr
  exact ⟨rfl, rfl⟩

/-- A sample stored goal row used by concrete witnesses. -/
def sampleRow : GoalRow := { id := "g1", userId := "u", title := "Read", status := "active" }

/-- A sample database holding one goal row. -/
def sampleDB : DB := { goals := [sampleRow] }

/-- Witness for C8_list_goals_pure on a database with one stored goal. -/
theorem C8_list_goals_pure_witness :
    sampleDB = sampleDB ∧
    (listGoalsTool (goalCallbacks "u")).func {} sampleDB =
      .ok (stringifyGoals [sampleRow.toGoal], sampleDB) :=
  C8_list_goals_pure "u" sampleDB {} (stringifyGoals [sampleRow.toGoal]) sampleDB rfl

/-- C3 (amended). The legacy chatWithTools performs only the decision
pass and returns its raw content; it agrees with the content event of
the streaming variant exactly when the decision response requests no
tool call and its content is a nonempty string. -/
theorem C3_single_pass_return (beh : ModelBehavior) (input : String)
    (hist : List BaseMessage) (ctx : UserContext)
    (cbs0 : GoalManagementCallbacksV0 σ) (cbs : GoalManagementCallbacks τ)
    (t : τ) (c : String)
    (h1 : (beh.decision (buildEnhancedHistory hist ctx) input).tool_calls = [])
    (h2 : (beh.decision (buildEnhancedHistory hist ctx) input).content = .str c)
    (h3 : c ≠ "") :
    chatWithTools beh input hist ctx cbs0 = .str c ∧
    (chatWithToolsStream beh input hist ctx cbs t).1 =
      [StreamEvent.content c, StreamEvent.done] := by
  constructor
  · unfold chatWithTools
    dsimp only
    rw [h2]
  · unfold chatWithToolsStream
    dsimp only
    rw [h1, h2]
    simp [JsContent.truthy, JsContent.serialize, h3]

/-- The legacy callbacks object used by concrete scenarios. -/
def v0Callbacks : GoalManagementCallbacksV0 DB :=
  { createGoal := dbCreateGoal "u", updateGoal := dbUpdateGoal "u",
    addProgress := dbAddProgress }

/-- C3 counterexample: on a decision response that requests one
list_goals call, chatWithTools returns the raw (empty) decision-pass
content while the streaming variant emits a content event carrying the
follow-up narration; the two texts differ. -/
theorem C3_single_pass_counterexample :
    chatWithTools behListThenTell "hi" [] emptyCtx v0Callbacks = JsContent.str "" ∧
    contentDatas
      (chatWithToolsStream behListThenTell "hi" [] emptyCtx (goalCallbacks "u") emptyDB).1 =
      ["You have no goals yet."] ∧
    ("" : String) ≠ "You have no goals yet." := by
  refine ⟨rfl, rfl, by decide⟩

/-- Witness for C3_single_pass_return at a stubbed model answering
directly with nonempty content. -/
theorem C3_single_pass_return_witness :
    chatWithTools behPlain "hi" [] emptyCtx v0Callbacks = .str "Hello there" ∧
    (chatWithToolsStream behPlain "hi" [] emptyCtx (goalCallbacks "u") emptyDB).1 =
      [StreamEvent.content "Hello there", StreamEvent.done] :=
  C3_single_pass_return behPlain "hi" [] emptyCtx v0Callbacks (goalCallbacks "u")
    emptyDB "Hello there" rfl rfl (by decide)

/-- C1 (amended). For a decision-pass response with n >= 1 tool calls,
each naming one of the four bound tools and none of whose executions
raises, the stream is exactly the strict interleaving call 0, result 0,
call 1, result 1, ..., followed by exactly one content event and one
done event. -/
theorem C1_interleaved_events (beh : ModelBehavior) (input : String)
    (hist : List BaseMessage) (ctx : UserContext)
    (cbs : GoalManagementCallbacks σ) (s : σ)
    (h0 : (beh.decision (buildEnhancedHistory hist ctx) input).tool_calls ≠ [])
    (hn : ∀ tc ∈ (beh.decision (buildEnhancedHistory hist ctx) input).tool_calls,
      ((createTools cbs).find? (fun t => t.name == tc.name)).isSome)
    (hok : (runToolCalls (createTools cbs)
      (beh.decision (buildEnhancedHistory hist ctx) input).tool_calls s).2.2.2 = none) :
    ∃ rs c,
      rs.length = (beh.decision (buildEnhancedHistory hist ctx) input).tool_calls.length ∧
      (chatWithToolsStream beh input hist ctx cbs s).1 =
        interleaveEvents (beh.decision (buildEnhancedHistory hist ctx) input).tool_calls rs ++
          [StreamEvent.content c, StreamEvent.done] := by
  obtain ⟨rs, hlen, hevs⟩ := runToolCalls_ok_shape (createTools cbs) _ s hn hok
  unfold chatWithToolsStream
  dsimp only
  rw [if_pos (List.length_pos.mpr h0)]
  rcases hr : runToolCalls (createTools cbs)
      (beh.decision (buildEnhancedHistory hist ctx) input).tool_calls s with
    ⟨evs, tms, s', err⟩
  rw [hr] at hok hevs
  dsimp only at hok hevs
  subst hok
  dsimp only
  exact ⟨rs, _, hlen, by rw [hevs]⟩

/-- C1 counterexample: a decision-pass response with exactly one tool
call whose name matches none of the four bound tools yields one
tool_call event but zero tool_result events. -/
theorem C1_unknown_tool_counterexample :
    (behUnknownTool.decision (buildEnhancedHistory [] emptyCtx) "hi").tool_calls.length = 1 ∧
    ((chatWithToolsStream behUnknownTool "hi" [] emptyCtx
        (goalCallbacks "u") emptyDB).1.countP (fun e => e.isToolCall)) = 1 ∧
    ((chatWithToolsStream behUnknownTool "hi" [] emptyCtx
        (goalCallbacks "u") emptyDB).1.countP (fun e => e.isToolResult)) = 0 := by
  decide

/-- Witness for C1_interleaved_events at a stubbed model requesting one
successful create_goal call. -/
theorem C1_interleaved_events_witness :
    ∃ rs c,
      rs.length =
        (behCreateGoal.decision (buildEnhancedHistory [] emptyCtx) "hi").tool_calls.length ∧
      (chatWithToolsStream behCreateGoal "hi" [] emptyCtx (goalCallbacks "u") emptyDB).1 =
        interleaveEvents
          (behCreateGoal.decision (buildEnhancedHistory [] emptyCtx) "hi").tool_calls rs ++
          [StreamEvent.content c, StreamEvent.done] :=
  C1_interleaved_events behCreateGoal "hi" [] emptyCtx (goalCallbacks "u") emptyDB
    (by decide) (by decide) (by decide)

/-- C2 (amended). A raising tool executor is not caught inside
chatWithToolsStream: the error escapes the generator, and every event
yielded up to that point is a tool_call or tool_result event — in
particular no content and no done event is emitted. (The enclosing
route catches the escaped error; see C7.) -/
theorem C2_error_propagates (beh : ModelBehavior) (input : String)
    (hist : List BaseMessage) (ctx : UserContext)
    (cbs : GoalManagementCallbacks σ) (s : σ) (e : String)
    (h : (runToolCalls (createTools cbs)
      (beh.decision (buildEnhancedHistory hist ctx) input).tool_calls s).2.2.2 = some e) :
    (chatWithToolsStream beh input hist ctx cbs s).2.2 = some e ∧
    ∀ ev ∈ (chatWithToolsStream beh input hist ctx cbs s).1,
      ev.isToolCall = true ∨ ev.isToolResult = true := by
  have h0 : (beh.decision (buildEnhancedHistory hist ctx) input).tool_calls ≠ [] := by
    intro hnil
    rw [hnil] at h
    simp [runToolCalls] at h
  have hkind := runToolCalls_events_kind (createTools cbs)
    (beh.decision (buildEnhancedHistory hist ctx) input).tool_calls s
  unfold chatWithToolsStream
  dsimp only
  rw [if_pos (List.length_pos.mpr h0)]
  rcases hr : runToolCalls (createTools cbs)
      (beh.decision (buildEnhancedHistory hist ctx) input).tool_calls s with
    ⟨evs, tms, s', err⟩
  rw [hr] at h
  dsimp only at h
  subst h
  refine ⟨rfl, ?_⟩
  intro ev hev
  have := hkind ev
  rw [hr] at this
  exact this hev

/-- C2 counterexample: when the add_progress executor rejects (goal not
found), the stream consists of the lone tool_call event — no
tool_result, no content and no done event follow — the error escapes,
and no progress row is inserted. -/
theorem C2_uncaught_error_counterexample :
    (chatWithToolsStream behAddProgressFail "hi" [] emptyCtx
      (goalCallbacks "u") emptyDB).1 = [StreamEvent.tool_call "add_progress" failArgs] ∧
    (chatWithToolsStream behAddProgressFail "hi" [] emptyCtx
      (goalCallbacks "u") emptyDB).2.2 = some "goal not found" ∧
    (chatWithToolsStream behAddProgressFail "hi" [] emptyCtx
      (goalCallbacks "u") emptyDB).2.1.progressRows = [] := by
  decide

/-- Witness for C2_error_propagates at a stubbed model requesting one
add_progress call whose executor rejects. -/
theorem C2_error_propagates_witness :
    (chatWithToolsStream behAddProgressFail "hi" [] emptyCtx
      (goalCallbacks "u") emptyDB).2.2 = some "goal not found" ∧
    ∀ ev ∈ (chatWithToolsStream behAddProgressFail "hi" [] emptyCtx
      (goalCallbacks "u") emptyDB).1,
      ev.isToolCall = true ∨ ev.isToolResult = true :=
  C2_error_propagates behAddProgressFail "hi" [] emptyCtx (goalCallbacks "u") emptyDB
    "goal not found" (by decide)

/-- Each of the four bound tool executors over the route callbacks
leaves the messages table unchanged whenever it succeeds. -/
lemma toolFunc_messages (uid : String) (t : Tool DB)
    (ht : t ∈ createTools (goalCallbacks uid)) (args : ToolArgs) (db : DB)
    (res : String) (db' : DB) (h : t.func args db = .ok (res, db')) :
    db'.messages = db.messages := by
  simp only [createTools, List.mem_cons, List.not_mem_nil, or_false] at ht
  rcases ht with rfl | rfl | rfl | rfl
  · dsimp only [createGoalTool, goalCallbacks, dbCreateGoal] at h
    split at h
    · exact absurd h (by simp)
    · simp only [Except.ok.injEq, Prod.mk.injEq] at h
      obtain ⟨h1, h2⟩ := h
      subst h2
      rfl
  · dsimp only [updateGoalTool, goalCallbacks, dbUpdateGoal] at h
    split at h
    · exact absurd h (by simp)
    · split at h
      · exact absurd h (by simp)
      · rename_i x0 g0 db0 heq
        simp only [Except.ok.injEq, Prod.mk.injEq] at h
        obtain ⟨h1, h2⟩ := h
        subst h2
        repeat' split at heq
        all_goals first
          | (simp only [Except.ok.injEq, Prod.mk.injEq] at heq
             obtain ⟨hg, hs⟩ := heq
             subst hs
             rfl)
          | exact absurd heq (by simp)
  · dsimp only [addProgressTool, goalCallbacks, dbAddProgress] at h
    split at h
    · split at h
      · exact absurd h (by simp)
      · rename_i x0 b0 db0 heq
        simp only [Except.ok.injEq, Prod.mk.injEq] at h
        obtain ⟨h1, h2⟩ := h
        subst h2
        split at heq
        · simp only [Except.ok.injEq, Prod.mk.injEq] at heq
          obtain ⟨hb, hs⟩ := heq
          subst hs
          rfl
        · exact absurd heq (by simp)
    · exact absurd h (by simp)
  · dsimp only [listGoalsTool, goalCallbacks, dbListGoals] at h
    simp only [Except.ok.injEq, Prod.mk.injEq] at h
    obtain ⟨h1, h2⟩ := h
    subst h2
    rfl

/-- The tool-execution loop over the route callbacks never touches the
messages table, whatever the calls and wherever it stops. -/
lemma runToolCalls_messages (uid : String) (tcs : List ToolCall) (db : DB) :
    ((runToolCalls (createTools (goalCallbacks uid)) tcs db).2.2.1).messages =
      db.messages := by
  induction tcs generalizing db with
  | nil => rfl
  | cons tc rest ih =>
    unfold runToolCalls
    cases hf : List.find? (fun t => t.name == tc.name) (createTools (goalCallbacks uid)) with
    | none =>
      dsimp only
      exact ih db
    | some t =>
      dsimp only
      cases hr : t.func tc.args db with
      | error e => rfl
      | ok p =>
        obtain ⟨res, db1⟩ := p
        dsimp only
        have h1 : db1.messages = db.messages :=
          toolFunc_messages uid t (List.mem_of_find?_eq_some hf) tc.args db res db1 hr
        rw [ih db1, h1]

/-- The whole agent stream over the route callbacks never touches the
messages table. -/
lemma chatWithToolsStream_messages (beh : ModelBehavior) (msg : String)
    (hist : List BaseMessage) (ctx : UserContext) (uid : String) (db : DB) :
    ((chatWithToolsStream beh msg hist ctx (goalCallbacks uid) db).2.1).messages =
      db.messages := by
  have hrun := runToolCalls_messages uid
    (beh.decision (buildEnhancedHistory hist ctx) msg).tool_calls db
  unfold chatWithToolsStream
  dsimp only
  split
  · rcases hr : runToolCalls (createTools (goalCallbacks uid))
        (beh.decision (buildEnhancedHistory hist ctx) msg).tool_calls db with
      ⟨evs, tms, db1, err⟩
    rw [hr] at hrun
    dsimp only at hrun
    cases err with
    | none => exact hrun
    | some e => exact hrun
  · split
    · rfl
    · rfl

/-- C7 (confirmed). When the agent loop raises, the route stream ends
with the distinct terminal error frame (never a silent truncation), and
no assistant message row is persisted. -/
theorem C7_error_event_no_persist (beh : ModelBehavior) (uid msg : String)
    (hist : List BaseMessage) (ctx : UserContext) (convId : String) (db : DB)
    (e : String)
    (h : (chatWithToolsStream beh msg hist ctx (goalCallbacks uid) db).2.2 = some e) :
    ∃ evs db',
      routeStreamBody beh uid msg hist ctx convId db =
        (evs ++ [SSEEvent.error "Failed to process message"], db') ∧
      db'.messages = db.messages := by
  have hm := chatWithToolsStream_messages beh msg hist ctx uid db
  unfold routeStreamBody
  rcases hr : chatWithToolsStream beh msg hist ctx (goalCallbacks uid) db with
    ⟨evs, db', err⟩
  rw [hr] at h hm
  dsimp only at h hm
  subst h
  exact ⟨evs.map SSEEvent.stream, db', rfl, hm⟩

/-- Witness for C7_error_event_no_persist at the failing add_progress
scenario. -/
theorem C7_error_event_no_persist_witness :
    ∃ evs db',
      routeStreamBody behAddProgressFail "u" "hi" [] emptyCtx "c1" emptyDB =
        (evs ++ [SSEEvent.error "Failed to process message"], db') ∧
      db'.messages = emptyDB.messages :=
  C7_error_event_no_persist behAddProgressFail "u" "hi" [] emptyCtx "c1" emptyDB
    "goal not found" (by decide)

/-- When the filtered update object is nonempty and some stored row
matches the goal id and the owning user, the updateGoal callback
succeeds and the goals table becomes the field-wise truthy patch of
every matching row. -/
lemma dbUpdateGoal_ok (uid gid : String) (u : GoalUpdates) (db : DB)
    (hne : (jsTruthy u.title || jsTruthy u.description || jsTruthy u.status ||
      jsTruthy u.targetDate) = true)
    (hm : db.goals.any (fun r => r.id == gid && r.userId == uid) = true) :
    ∃ g, dbUpdateGoal uid gid u db =
      .ok (g, { db with goals := db.goals.map (fun r =>
        if r.id == gid && r.userId == uid then applyGoalUpdates u r else r) }) := by
  unfold dbUpdateGoal
  rw [if_pos hne]
  dsimp only
  obtain ⟨r, hr, hpr⟩ := List.any_eq_true.mp hm
  have hpr2 : ((applyGoalUpdates u r).id == gid && (applyGoalUpdates u r).userId == uid)
      = true := hpr
  have hmem : applyGoalUpdates u r ∈ db.goals.map (fun r =>
      if r.id == gid && r.userId == uid then applyGoalUpdates u r else r) := by
    have := List.mem_map_of_mem
      (fun r => if r.id == gid && r.userId == uid then applyGoalUpdates u r else r) hr
    dsimp only at this
    rw [if_pos hpr] at this
    exact this
  have hsome : ((db.goals.map (fun r =>
      if r.id == gid && r.userId == uid then applyGoalUpdates u r else r)).find?
      (fun r => r.id == gid && r.userId == uid)).isSome := by
    rw [List.find?_isSome]
    exact ⟨applyGoalUpdates u r, hmem, hpr2⟩
  rcases hfind : (db.goals.map (fun r =>
      if r.id == gid && r.userId == uid then applyGoalUpdates u r else r)).find?
      (fun r => r.id == gid && r.userId == uid) with _ | g
  · rw [hfind] at hsome
    simp at hsome
  · rw [hfind]
    exact ⟨g.toGoal, rfl⟩

/-- Truthiness of a truthy-filtered optional string collapses to the
truthiness of the original value. -/
lemma jsTruthy_filter (x : Option String) :
    jsTruthy (if jsTruthy x then x else none) = jsTruthy x := by
  by_cases hx : jsTruthy x
  · rw [if_pos hx]
  · rw [if_neg hx]
    simp only [Bool.not_eq_true] at hx
    rw [hx]
    rfl

/-- Reduction of the update_goal executor once its goalId argument is
known to be present: it builds the truthy-filtered update object and
hands it to the callback. -/
lemma updateGoalTool_some (cbs : GoalManagementCallbacks σ) (args : ToolArgs)
    (gid : String) (u : GoalUpdates) (h : args.goalId = some gid)
    (hu : u = { title := if jsTruthy args.title then args.title else none
                description := if jsTruthy args.description then args.description else none
                status := if jsTruthy args.status then args.status else none
                targetDate := if jsTruthy args.targetDate then args.targetDate else none })
    (s : σ) :
    (updateGoalTool cbs).func args s =
      match cbs.updateGoal gid u s with
      | .error e => .error e
      | .ok (g, s') => .ok (g.stringify, s') := by
  subst hu
  unfold updateGoalTool
  dsimp only
  rw [h]

/-- C9 (confirmed). Through the update_goal tool an empty-string
optional argument behaves exactly like an absent one: substituting the
empty string for an absent title, description, status or targetDate
never changes the outcome of the call; when at least one supplied
argument survives the truthiness filter, the matched rows receive the
field-wise patch in which an empty-string argument leaves its field at
its previous value, so no field is ever set to the empty string; and
when every optional argument is absent or empty-string, the update
object is empty and the callback rejects with the drizzle No values to
set error before writing anything, exactly as if none had been
supplied. -/
theorem C9_empty_string_absent (uid gid : String) (db : DB) (args : ToolArgs)
    (hg : args.goalId = some gid)
    (hm : db.goals.any (fun r => r.id == gid && r.userId == uid) = true) :
    ((updateGoalTool (goalCallbacks uid)).func { args with title := some "" } db =
      (updateGoalTool (goalCallbacks uid)).func { args with title := none } db) ∧
    ((updateGoalTool (goalCallbacks uid)).func { args with description := some "" } db =
      (updateGoalTool (goalCallbacks uid)).func { args with description := none } db) ∧
    ((updateGoalTool (goalCallbacks uid)).func { args with status := some "" } db =
      (updateGoalTool (goalCallbacks uid)).func { args with status := none } db) ∧
    ((updateGoalTool (goalCallbacks uid)).func { args with targetDate := some "" } db =
      (updateGoalTool (goalCallbacks uid)).func { args with targetDate := none } db) ∧
    ((jsTruthy args.title || jsTruthy args.description || jsTruthy args.status ||
        jsTruthy args.targetDate) = true →
      ∃ res, (updateGoalTool (goalCallbacks uid)).func args db =
        .ok (res, { db with goals := db.goals.map (fun r =>
          if r.id == gid && r.userId == uid then
            { r with
              title := if jsTruthy args.title then args.title.getD r.title else r.title
              description := if jsTruthy args.description then args.description
                else r.description
              status := if jsTruthy args.status then args.status.getD r.status
                else r.status
              targetDate := if jsTruthy args.targetDate then args.targetDate
                else r.targetDate }
          else r) })) ∧
    ((jsTruthy args.title || jsTruthy args.description || jsTruthy args.status ||
        jsTruthy args.targetDate) = false →
      (updateGoalTool (goalCallbacks uid)).func args db =
        .error "No values to set") := by
  refine ⟨rfl, rfl, rfl, rfl, ?_, ?_⟩
  · intro hne
    have hcomp : ∀ r : GoalRow,
        applyGoalUpdates
          { title := if jsTruthy args.title then args.title else none
            description := if jsTruthy args.description then args.description else none
            status := if jsTruthy args.status then args.status else none
            targetDate := if jsTruthy args.targetDate then args.targetDate else none } r =
        { r with
          title := if jsTruthy args.title then args.title.getD r.title else r.title
          description := if jsTruthy args.description then args.description
            else r.description
          status := if jsTruthy args.status then args.status.getD r.status else r.status
          targetDate := if jsTruthy args.targetDate then args.targetDate
            else r.targetDate } := by
      intro r
      unfold applyGoalUpdates
      have hnone : jsTruthy none = false := rfl
      by_cases h1 : jsTruthy args.title <;> by_cases h2 : jsTruthy args.description <;>
        by_cases h3 : jsTruthy args.status <;> by_cases h4 : jsTruthy args.targetDate <;>
        simp [h1, h2, h3, h4, hnone]
    have hmaps : db.goals.map (fun r =>
        if r.id == gid && r.userId == uid then
          applyGoalUpdates
            { title := if jsTruthy args.title then args.title else none
              description := if jsTruthy args.description then args.description else none
              status := if jsTruthy args.status then args.status else none
              targetDate := if jsTruthy args.targetDate then args.targetDate else none } r
        else r) =
        db.goals.map (fun r =>
        if r.id == gid && r.userId == uid then
          { r with
            title := if jsTruthy args.title then args.title.getD r.title else r.title
            description := if jsTruthy args.description then args.description
              else r.description
            status := if jsTruthy args.status then args.status.getD r.status else r.status
            targetDate := if jsTruthy args.targetDate then args.targetDate
              else r.targetDate }
        else r) := by
      apply List.map_congr_left
      intro r _
      by_cases hp : (r.id == gid && r.userId == uid) = true
      · rw [if_pos hp, if_pos hp, hcomp r]
      · rw [if_neg hp, if_neg hp]
    obtain ⟨g, hok⟩ := dbUpdateGoal_ok uid gid
      { title := if jsTruthy args.title then args.title else none
        description := if jsTruthy args.description then args.description else none
        status := if jsTruthy args.status then args.status else none
        targetDate := if jsTruthy args.targetDate then args.targetDate else none } db
      (by dsimp only; simp only [jsTruthy_filter]; exact hne) hm
    refine ⟨g.stringify, ?_⟩
    unfold updateGoalTool
    dsimp only
    rw [hg]
    dsimp only [goalCallbacks]
    rw [hok]
    dsimp only
    rw [hmaps]
  · intro hfalse
    simp only [Bool.or_eq_false_iff] at hfalse
    obtain ⟨⟨⟨h1, h2⟩, h3⟩, h4⟩ := hfalse
    rw [updateGoalTool_some (goalCallbacks uid) args gid
      { title := if jsTruthy args.title then args.title else none
        description := if jsTruthy args.description then args.description else none
        status := if jsTruthy args.status then args.status else none
        targetDate := if jsTruthy args.targetDate then args.targetDate else none } hg rfl]
    dsimp only [goalCallbacks]
    have hupd : dbUpdateGoal uid gid
        { title := if jsTruthy args.title then args.title else none
          description := if jsTruthy args.description then args.description else none
          status := if jsTruthy args.status then args.status else none
          targetDate := if jsTruthy args.targetDate then args.targetDate else none } db =
        .error "No values to set" := by
      unfold dbUpdateGoal
      rw [if_neg]
      simp [jsTruthy_filter, h1, h2, h3, h4, show jsTruthy none = false from rfl]
    rw [hupd]

/-- A stored goal row with every optional field populated, used by the
update witness. -/
def c9Row : GoalRow :=
  { id := "g1", userId := "u", title := "Read 12 books",
    description := some "one per month", status := "active",
    targetDate := some "2025-12-31" }

/-- A database holding the populated row. -/
def c9DB : DB := { goals := [c9Row] }

/-- update_goal arguments supplying title as the empty string alongside
a real status change. -/
def c9Args : ToolArgs := { goalId := some "g1", title := some "", status := some "completed" }

/-- Witness for C9_empty_string_absent: empty-string title supplied
together with status completed against a fully populated stored row. -/
theorem C9_empty_string_absent_witness :
    ((updateGoalTool (goalCallbacks "u")).func { c9Args with title := some "" } c9DB =
      (updateGoalTool (goalCallbacks "u")).func { c9Args with title := none } c9DB) ∧
    ((updateGoalTool (goalCallbacks "u")).func { c9Args with description := some "" } c9DB =
      (updateGoalTool (goalCallbacks "u")).func { c9Args with description := none } c9DB) ∧
    ((updateGoalTool (goalCallbacks "u")).func { c9Args with status := some "" } c9DB =
      (updateGoalTool (goalCallbacks "u")).func { c9Args with status := none } c9DB) ∧
    ((updateGoalTool (goalCallbacks "u")).func { c9Args with targetDate := some "" } c9DB =
      (updateGoalTool (goalCallbacks "u")).func { c9Args with targetDate := none } c9DB) ∧
    ((jsTruthy c9Args.title || jsTruthy c9Args.description || jsTruthy c9Args.status ||
        jsTruthy c9Args.targetDate) = true →
      ∃ res, (updateGoalTool (goalCallbacks "u")).func c9Args c9DB =
        .ok (res, { c9DB with goals := c9DB.goals.map (fun r =>
          if r.id == "g1" && r.userId == "u" then
            { r with
              title := if jsTruthy c9Args.title then c9Args.title.getD r.title
                else r.title
              description := if jsTruthy c9Args.description then c9Args.description
                else r.description
              status := if jsTruthy c9Args.status then c9Args.status.getD r.status
                else r.status
              targetDate := if jsTruthy c9Args.targetDate then c9Args.targetDate
                else r.targetDate }
          else r) })) ∧
    ((jsTruthy c9Args.title || jsTruthy c9Args.description || jsTruthy c9Args.status ||
        jsTruthy c9Args.targetDate) = false →
      (updateGoalTool (goalCallbacks "u")).func c9Args c9DB =
        .error "No values to set") :=
  C9_empty_string_absent "u" "g1" c9DB c9Args rfl (by decide)

/-- C6 (confirmed). A create_goal tool call with title Run a 5k and no
description or targetDate stores a Goal row with status active, null
description, null targetDate and the same title; a subsequent
update_goal tool call on that goal supplying only status completed
patches only the status and leaves title, description and targetDate
unchanged. -/
theorem C6_goal_roundtrip (uid : String) (db : DB)
    (hfresh : ∀ r ∈ db.goals, r.id ≠ toString db.nextId) :
    ∃ res1 res2 db2,
      (createGoalTool (goalCallbacks uid)).func { title := some "Run a 5k" } db =
        .ok (res1, { db with
                     goals := db.goals ++
                       [{ id := toString db.nextId, userId := uid, title := "Run a 5k",
                          description := none, status := "active", targetDate := none }],
                     nextId := db.nextId + 1 }) ∧
      (updateGoalTool (goalCallbacks uid)).func
          { goalId := some (toString db.nextId), status := some "completed" }
          { db with
            goals := db.goals ++
              [{ id := toString db.nextId, userId := uid, title := "Run a 5k",
                 description := none, status := "active", targetDate := none }],
            nextId := db.nextId + 1 } =
        .ok (res2, db2) ∧
      db2.goals = db.goals ++
        [{ id := toString db.nextId, userId := uid, title := "Run a 5k",
           description := none, status := "completed", targetDate := none }] := by
  have hm : ((db.goals ++
        [({ id := toString db.nextId, userId := uid, title := "Run a 5k",
            description := none, status := "active", targetDate := none } : GoalRow)]).any
      (fun r => r.id == toString db.nextId && r.userId == uid)) = true := by
    simp
  obtain ⟨g, hok⟩ := dbUpdateGoal_ok uid (toString db.nextId)
    { status := some "completed" }
    { db with
      goals := db.goals ++
        [{ id := toString db.nextId, userId := uid, title := "Run a 5k",
           description := none, status := "active", targetDate := none }],
      nextId := db.nextId + 1 } (by decide) hm
  have hmap : (db.goals ++
        [({ id := toString db.nextId, userId := uid, title := "Run a 5k",
            description := none, status := "active", targetDate := none } : GoalRow)]).map
      (fun r => if r.id == toString db.nextId && r.userId == uid then
        applyGoalUpdates { status := some "completed" } r else r) =
      db.goals ++
        [{ id := toString db.nextId, userId := uid, title := "Run a 5k",
           description := none, status := "completed", targetDate := none }] := by
    rw [List.map_append]
    congr 1
    · have hid : ∀ r ∈ db.goals,
          (if r.id == toString db.nextId && r.userId == uid then
            applyGoalUpdates { status := some "completed" } r else r) = r := by
        intro r hr
        rw [if_neg]
        simp [hfresh r hr]
      rw [List.map_congr_left hid]
      exact List.map_id db.goals
    · simp [applyGoalUpdates, jsTruthy]
  refine ⟨_, g.stringify,
    { db with
      goals := db.goals ++
        [{ id := toString db.nextId, userId := uid, title := "Run a 5k",
           description := none, status := "completed", targetDate := none }],
      nextId := db.nextId + 1 }, rfl, ?_, rfl⟩
  rw [updateGoalTool_some (goalCallbacks uid)
    ({ goalId := some (toString db.nextId), status := some "completed" } : ToolArgs)
    (toString db.nextId) { status := some "completed" } rfl rfl]
  dsimp only [goalCallbacks]
  rw [hok]
  dsimp only
  rw [hmap]

/-- Witness for C6_goal_roundtrip starting from the empty database. -/
theorem C6_goal_roundtrip_witness :
    ∃ res1 res2 db2,
      (createGoalTool (goalCallbacks "u")).func { title := some "Run a 5k" } emptyDB =
        .ok (res1, { emptyDB with
                     goals := emptyDB.goals ++
                       [{ id := toString emptyDB.nextId, userId := "u",
                          title := "Run a 5k", description := none, status := "active",
                          targetDate := none }],
                     nextId := emptyDB.nextId + 1 }) ∧
      (updateGoalTool (goalCallbacks "u")).func
          { goalId := some (toString emptyDB.nextId), status := some "completed" }
          { emptyDB with
            goals := emptyDB.goals ++
              [{ id := toString emptyDB.nextId, userId := "u", title := "Run a 5k",
                 description := none, status := "active", targetDate := none }],
            nextId := emptyDB.nextId + 1 } =
        .ok (res2, db2) ∧
      db2.goals = emptyDB.goals ++
        [{ id := toString emptyDB.nextId, userId := "u", title := "Run a 5k",
           description := none, status := "completed", targetDate := none }] :=
  C6_goal_roundtrip "u" emptyDB (fun r hr => absurd hr (List.not_mem_nil r))

end Coach
